import Mathlib

/-!
Verification of the Bottle-agent RAG system against its specification.

This file shallowly embeds the parts of the repository that the claims
talk about:

* `src/rag_system/document_processor.py` — paragraph-based chunking
  (`DocumentProcessor._chunk_document`, `_create_chunk`, `chunk_documents`);
* `src/rag_system/embedding_client.py` — cosine similarity and top-k search
  (`EmbeddingClient.compute_similarity`, `find_most_similar`);
* `src/rag_system/knowledge_base.py` — the knowledge-base manager
  (`create_knowledge_base`, `delete_knowledge_base`, `update_knowledge_base`,
  `query`, `query_stream`, `query_stream_with_context`, `_safe_kb_name`,
  `_load_chunks`, `_load_vector_index`, `_build_vector_index`, `_save_chunks`).

Modelling conventions:

* Python strings are modelled by Lean `String`; inside the chunking
  algorithm the text is manipulated as `List Char` (the `.data` of a
  `String`), which models Python's code-point indexing (`len`, slicing)
  directly.  `str.strip()` is `pyStrip`, `s[-k:]` (for `k ≥ 1`) is
  `pyTail k`, `str.split("\n\n")` is `pySplit`.
* External services (the document loader, the embedding model, FAISS's
  `normalize_L2` and `index.search`, and the LLM client) are fields of an
  environment record `Env`; the code under verification calls them but
  does not define them.  Scores and embedding coordinates are exact
  rationals `ℚ` in the knowledge-base layer; the cosine-similarity
  functions of `embedding_client.py`, which need a square root, are
  defined generically over a field with the square root passed as a
  function, and are instantiated at `ℝ` with `Real.sqrt` in the theorems.
* The on-disk state (the registry `knowledge_bases.json`, each knowledge
  base's `chunks.pkl` and `vector_index.faiss`/`index.faiss`) is a record
  `KBState` of association lists keyed by directory name.  Mutating
  operations also return the list of externally visible events they
  performed (`Event`), which makes ordering claims stateable.
* The LLM client: `query` returns the produced string together with the
  number of calls made to `llm_client.generate`; the streaming variants
  return the list of yielded pieces together with the number of calls to
  the streaming generation entry point.
-/

/-! ## Python string primitives -/

/-- Python `str.strip()` (with no argument): remove leading and trailing
whitespace.  Modelled on `List Char`. -/
def pyStrip (l : List Char) : List Char :=
  ((l.dropWhile Char.isWhitespace).reverse.dropWhile Char.isWhitespace).reverse

/-- Python `s[-k:]` for `k ≥ 1`: the trailing `min k (length s)` characters.
(The source only evaluates this with `k = chunk_overlap > 0`.) -/
def pyTail (k : Nat) (l : List Char) : List Char :=
  l.drop (l.length - k)

/-- The paragraph separator `"\n\n"` that `_chunk_document` splits on and
re-inserts between joined paragraphs. -/
def sepNN : List Char := ['\n', '\n']

/-- Split a character list at every (non-overlapping, leftmost-first)
occurrence of two consecutive newline characters — the semantics of
Python `str.split("\n\n")`. -/
def splitNN : List Char → List (List Char)
  | [] => [[]]
  | '\n' :: '\n' :: rest => [] :: splitNN rest
  | c :: rest =>
    match splitNN rest with
    | [] => [[c]]
    | p :: ps => (c :: p) :: ps

/-- Python `content.split("\n\n")`, as performed by `_chunk_document`
(line 338 of `document_processor.py`), producing the paragraphs as
character lists. -/
def pySplit (s : String) : List (List Char) :=
  splitNN s.data

/-! ## Data model (`data_structures.py`) -/

/-- `Document` (`data_structures.py`); only the fields the chunking code
reads (`id`, `title`, `content`) are modelled. -/
structure Document where
  id : String
  title : String
  content : String
deriving DecidableEq

/-- The metadata entries `_create_chunk` adds on top of the document
metadata: `document_id`, `document_title`, `chunk_index`, `chunk_size`. -/
structure ChunkMeta where
  documentId : String
  documentTitle : String
  chunkIndex : Nat
  chunkSize : Nat
deriving DecidableEq

/-- `DocumentChunk` (`data_structures.py`): `id`, `content`, the metadata
entries written by `_create_chunk`, and the optional embedding. -/
structure DocumentChunk where
  id : String
  content : String
  meta : ChunkMeta
  embedding : Option (List ℚ) := none
deriving DecidableEq

/-! ## Chunking (`document_processor.py`) -/

/-- The chunking configuration `rag_config["chunk_size"]` /
`rag_config["chunk_overlap"]` read by `DocumentProcessor.__init__`. -/
structure ChunkCfg where
  chunkSize : Nat
  chunkOverlap : Nat
deriving DecidableEq

/-- One emitted chunk of `_chunk_document`, instrumented with the raw
buffer: `raw` is the value of `current_chunk` at emission time (the string
the overlap slice `current_chunk[-chunk_overlap:]` is taken from), and
`content` is `current_chunk.strip()`, exactly what `_create_chunk`
receives.  `content = pyStrip raw` always holds (proved below); the ghost
field `raw` only makes the overlap-seeding claims stateable. -/
structure RawChunk where
  raw : List Char
  content : List Char
  idx : Nat
deriving DecidableEq

/-- The loop state of `_chunk_document`: the emitted chunks, the buffer
`current_chunk`, the size counter `current_size`, and `chunk_index`. -/
structure ChunkSt where
  chunks : List RawChunk
  buf : List Char
  size : Nat
  idx : Nat
deriving DecidableEq

/-- The body of the `for paragraph in paragraphs` loop of
`_chunk_document` (lines 344–377 of `document_processor.py`): strip the
paragraph, skip it if empty; if the size counter plus the paragraph length
overflows `chunk_size` and the buffer is non-empty, emit the stripped
buffer and reseed (with the trailing `chunk_overlap` characters when
`chunk_overlap > 0`); otherwise join the paragraph onto the buffer.
Note that in the join branch the size counter grows by the paragraph
length only — not by the two characters of the inserted `"\n\n"`. -/
def chunkStep (cfg : ChunkCfg) (st : ChunkSt) (para0 : List Char) : ChunkSt :=
  let para := pyStrip para0
  if para = [] then st
  else
    let psize := para.length
    if cfg.chunkSize < st.size + psize ∧ st.buf ≠ [] then
      let emitted : RawChunk := ⟨st.buf, pyStrip st.buf, st.idx⟩
      if 0 < cfg.chunkOverlap then
        let overlapText := pyTail cfg.chunkOverlap st.buf
        let nb := overlapText ++ sepNN ++ para
        ⟨st.chunks ++ [emitted], nb, nb.length, st.idx + 1⟩
      else
        ⟨st.chunks ++ [emitted], para, psize, st.idx + 1⟩
    else
      if st.buf ≠ [] then
        ⟨st.chunks, st.buf ++ sepNN ++ para, st.size + psize, st.idx⟩
      else
        ⟨st.chunks, para, st.size + psize, st.idx⟩

/-- After the loop (lines 379–386): if the remaining buffer strips to a
non-empty string it is emitted as a final chunk with the current index. -/
def chunkFinal (st : ChunkSt) : List RawChunk :=
  if pyStrip st.buf ≠ [] then st.chunks ++ [⟨st.buf, pyStrip st.buf, st.idx⟩]
  else st.chunks

/-- `_chunk_document` applied to an already-split paragraph list. -/
def chunkParagraphs (cfg : ChunkCfg) (paras : List (List Char)) : List RawChunk :=
  chunkFinal (paras.foldl (chunkStep cfg) ⟨[], [], 0, 0⟩)

/-- `_chunk_document` down to the instrumented chunks: split the document
content on `"\n\n"` and run the accumulation loop. -/
def chunkRaw (cfg : ChunkCfg) (doc : Document) : List RawChunk :=
  chunkParagraphs cfg (pySplit doc.content)

/-- `_create_chunk` (lines 390–416): build the `DocumentChunk` with id
`f"{document.id}_chunk_{chunk_index}"` and the chunk metadata. -/
def createChunk (doc : Document) (content : List Char) (chunkIndex : Nat) :
    DocumentChunk :=
  { id := doc.id ++ "_chunk_" ++ toString chunkIndex
    content := String.mk content
    meta :=
      { documentId := doc.id
        documentTitle := doc.title
        chunkIndex := chunkIndex
        chunkSize := content.length }
    embedding := none }

/-- `_chunk_document` (lines 325–388): the chunks produced for one
document. -/
def chunkDocument (cfg : ChunkCfg) (doc : Document) : List DocumentChunk :=
  (chunkRaw cfg doc).map (fun rc => createChunk doc rc.content rc.idx)

/-- `chunk_documents` (lines 308–323): chunk every document and
concatenate. -/
def chunkDocuments (cfg : ChunkCfg) (docs : List Document) : List DocumentChunk :=
  docs.flatMap (chunkDocument cfg)

/-- The number of paragraphs `content.split("\n\n")` yields. -/
def numParas (doc : Document) : Nat := (pySplit doc.content).length

/-- The length of the longest stripped paragraph of the document. -/
def maxParaLen (doc : Document) : Nat :=
  ((pySplit doc.content).map (fun p => (pyStrip p).length)).foldr max 0

/-! ## Embedding client (`embedding_client.py`)

`compute_similarity` divides a dot product by a product of Euclidean
norms; the square root inside `np.linalg.norm` is passed in as a function
so that the definitions stay computable over any linearly ordered field,
and the theorems instantiate it with `Real.sqrt`. -/

/-- `np.dot` on equally long vectors (numpy rejects mismatched shapes;
`zipWith` truncates, which never occurs in the verified statements). -/
def dotL {α : Type} [LinearOrderedField α] (a b : List α) : α :=
  (List.zipWith (· * ·) a b).sum

/-- `np.linalg.norm e = sqrt (e · e)`. -/
def normL {α : Type} [LinearOrderedField α] (sqrt : α → α) (a : List α) : α :=
  sqrt (dotL a a)

/-- `EmbeddingClient.compute_similarity` (lines 193–212): return `0.0`
when either norm is zero, else the cosine `dot / (norm1 * norm2)`. -/
def computeSimilarity {α : Type} [LinearOrderedField α] (sqrt : α → α)
    (e1 e2 : List α) : α :=
  let norm1 := normL sqrt e1
  let norm2 := normL sqrt e2
  if norm1 = 0 ∨ norm2 = 0 then 0
  else dotL e1 e2 / (norm1 * norm2)

/-- The ordering `similarities.sort(key=lambda x: x[1], reverse=True)`
sorts by: descending second component. -/
def descScore {α : Type} [LinearOrderedField α] (a b : Nat × α) : Prop :=
  b.2 ≤ a.2

instance {α : Type} [LinearOrderedField α] : DecidableRel (descScore (α := α)) :=
  fun a b => inferInstanceAs (Decidable (b.2 ≤ a.2))

instance {α : Type} [LinearOrderedField α] : IsTotal (Nat × α) descScore :=
  ⟨fun a b => (le_total b.2 a.2).imp id id⟩

instance {α : Type} [LinearOrderedField α] : IsTrans (Nat × α) descScore :=
  ⟨fun _ _ _ hab hbc => le_trans hbc hab⟩

/-- `EmbeddingClient.find_most_similar` (lines 214–236): score every
candidate against the query in index order, stably sort by descending
score, and truncate to `top_k`. -/
def findMostSimilar {α : Type} [LinearOrderedField α] (sqrt : α → α)
    (queryEmbedding : List α) (candidateEmbeddings : List (List α))
    (topK : Nat) : List (Nat × α) :=
  let similarities := candidateEmbeddings.enum.map
    (fun ic => (ic.1, computeSimilarity sqrt queryEmbedding ic.2))
  (similarities.insertionSort descScore).take topK

/-! ## Knowledge-base manager (`knowledge_base.py`) -/

/-- `KnowledgeBaseInfo` (lines 27–36). -/
structure KBInfo where
  name : String
  description : String
  folderPath : String
  createdAt : String
  updatedAt : String
  documentCount : Nat
  chunkCount : Nat
deriving DecidableEq

/-- Association-list lookup, modelling a Python `dict` (`d.get(k)` /
`k in d`). -/
def lookupA {α : Type} (l : List (String × α)) (k : String) : Option α :=
  (l.find? (fun p => p.1 == k)).map Prod.snd

/-- `d[k] = v`: overwrite or add a binding. -/
def insertA {α : Type} (l : List (String × α)) (k : String) (v : α) :
    List (String × α) :=
  l.filter (fun p => p.1 ≠ k) ++ [(k, v)]

/-- `del d[k]` (also used for file deletion). -/
def eraseA {α : Type} (l : List (String × α)) (k : String) :
    List (String × α) :=
  l.filter (fun p => p.1 ≠ k)

/-- The persistent state the manager manipulates: the registry
`self.knowledge_bases` (persisted to `knowledge_bases.json`), and per
storage-directory name the `chunks.pkl` file, the `vector_index.faiss`
file and the legacy `index.faiss` file. -/
structure KBState where
  registry : List (String × KBInfo)
  chunkFiles : List (String × List DocumentChunk)
  indexFiles : List (String × List (List ℚ))
  oldIndexFiles : List (String × List (List ℚ))
deriving DecidableEq

/-- The externally visible steps a mutating operation performs, in
order. -/
inductive Event where
  | mkdirKB (dir : String)
  | writeIndex (dir : String)
  | writeChunks (dir : String)
  | registerKB (name : String)
  | unregisterKB (name : String)
  | saveRegistry
  | removeTree (dir : String)
deriving DecidableEq

/-- The environment of external services: configuration values read from
`self.rag_config`, the document pipeline, the embedding client, the two
FAISS operations the manager calls, the LLM client, and the clock. -/
structure Env where
  chunkCfg : ChunkCfg
  threshold : ℚ
  topKDefault : Nat
  folderExists : String → Bool
  processFolder : String → List Document
  embed : String → List ℚ
  normalizeL2 : List ℚ → List ℚ
  search : List (List ℚ) → List ℚ → Nat → List (ℚ × Int)
  generate : String → String
  generateStream : String → List String
  generateStreamWithContext : String → List String
  now : String

/-- `KnowledgeBaseManager._safe_kb_name` (lines 72–85): replace each of
the characters `/ \ : < > | ? * "` by an underscore.  The chained
`str.replace` calls are equivalent to one character-wise map because every
searched pattern is a single character and `_` is not among them. -/
def safeKbName (s : String) : String :=
  String.mk (s.data.map (fun c =>
    if c ∈ ['/', '\\', ':', '<', '>', '|', '?', '*', '"'] then '_' else c))

/-- Python `chunks[i]`: non-negative indices are direct, negative indices
wrap from the end, anything else raises `IndexError`. -/
def pyGet {α : Type} (l : List α) (i : Int) : Option α :=
  if 0 ≤ i then l[i.toNat]?
  else if 0 ≤ i + l.length then l[(i + l.length).toNat]?
  else none

/-- `f"❌ 知识库 '{kb_name}' 不存在"`. -/
def kbNotExistMsg (kbName : String) : String :=
  "❌ 知识库 \x27" ++ kbName ++ "\x27 不存在"

/-- `f"❌ 知识库 '{kb_name}' 数据不完整"` (`query`, line 308). -/
def kbIncompleteMsg (kbName : String) : String :=
  "❌ 知识库 \x27" ++ kbName ++ "\x27 数据不完整"

/-- `"❌ 没有找到相关内容"`: `query`'s answer when no retrieved chunk
passes the similarity threshold (line 326). -/
def noRelevantMsg : String := "❌ 没有找到相关内容"

/-- `"❌ 没有找到相关文档"`: the streaming variants' message when the
retained list is empty (lines 439 and 558). -/
def noRelevantDocsMsg : String := "❌ 没有找到相关文档"

/-- `f"❌ 查询失败: {e}"`: the `except` handler of the query methods.  The
exception text is not modelled. -/
def queryFailMsg : String := "❌ 查询失败"

/-- `f"❌ 知识库 '{kb_name}' 索引不存在..."` (stream variants, lines 407
and 526; the appended debug details are not modelled). -/
def kbIndexMissingMsg (kbName : String) : String :=
  "❌ 知识库 \x27" ++ kbName ++ "\x27 索引不存在"

/-- `f"❌ 知识库 '{kb_name}' 文档块不存在..."` (stream variants, lines 419
and 538; the appended debug details are not modelled). -/
def kbChunksMissingMsg (kbName : String) : String :=
  "❌ 知识库 \x27" ++ kbName ++ "\x27 文档块不存在"

/-- The `[文档片段 i+1] ...` context block built from the retained
chunks (lines 329–332; identical in the stream variants). -/
def buildContext (rcs : List (DocumentChunk × ℚ)) : String :=
  String.intercalate "\n\n"
    ((rcs.enum.map (fun irc =>
      "[文档片段 " ++ toString (irc.1 + 1) ++ "]\n" ++ irc.2.1.content)))

/-- The generation prompt of `query` / `query_stream` (lines 335–346; the
source-attribution line and the full Chinese instruction text around the
context are abbreviated to the parts framing the query and context). -/
def buildPrompt (q : String) (rcs : List (DocumentChunk × ℚ)) : String :=
  "基于以下文档内容回答用户问题。\n\n用户问题: " ++ q ++
    "\n\n相关文档内容:\n" ++ buildContext rcs ++ "\n\n回答:\n"

/-- The `📚 参考文档` trailer listing the retained chunks (lines 351–357;
the per-chunk source/page/score formatting is abbreviated to the chunk
ids). -/
def buildReferences (rcs : List (DocumentChunk × ℚ)) : String :=
  "\n\n📚 参考文档:\n" ++
    String.intercalate "\n" (rcs.map (fun rc => rc.1.id))

/-- The `for i, (score, idx) in enumerate(zip(scores[0], indices[0]))`
loop of `query` (lines 319–323): keep `(chunks[idx], score)` whenever
`score >= similarity_threshold`.  `chunks[idx]` is evaluated only inside
the guard; an out-of-range index raises (modelled by `none`), which the
surrounding `try` turns into the failure answer. -/
def relevantChunksQ (chunks : List DocumentChunk) (threshold : ℚ) :
    List (ℚ × Int) → Option (List (DocumentChunk × ℚ))
  | [] => some []
  | (score, i) :: rest =>
    if threshold ≤ score then
      match pyGet chunks i with
      | none => none
      | some c => (relevantChunksQ chunks threshold rest).map (fun l => (c, score) :: l)
    else relevantChunksQ chunks threshold rest

/-- The `for i, idx in enumerate(indices[0])` loop of `query_stream` /
`query_stream_with_context` (lines 433–436 and 552–555): keep
`(chunks[idx], score)` whenever `idx < len(chunks)` — no similarity
threshold is consulted.  A negative `idx` passes the guard and wraps
Python-style; `idx < -len(chunks)` raises (modelled by `none`). -/
def relevantChunksS (chunks : List DocumentChunk) :
    List (ℚ × Int) → Option (List (DocumentChunk × ℚ))
  | [] => some []
  | (score, i) :: rest =>
    if i < (chunks.length : Int) then
      match pyGet chunks i with
      | none => none
      | some c => (relevantChunksS chunks rest).map (fun l => (c, score) :: l)
    else relevantChunksS chunks rest

/-- `KnowledgeBaseManager.query` (lines 285–362).  Returns the answer
string and the number of calls made to `self.llm_client.generate`.
`_load_vector_index` and `_load_chunks` are called with the *raw*
knowledge-base name (lines 304–305); `_load_chunks` returns `[]` when the
file is absent, `_load_vector_index` returns `None`. -/
def kbQuery (env : Env) (st : KBState) (kbName q : String)
    (topKArg : Option Nat) : String × Nat :=
  match lookupA st.registry kbName with
  | none => (kbNotExistMsg kbName, 0)
  | some _ =>
    let topK := topKArg.getD env.topKDefault
    let indexO := lookupA st.indexFiles kbName
    let chunks := (lookupA st.chunkFiles kbName).getD []
    if indexO.isNone ∨ chunks = [] then (kbIncompleteMsg kbName, 0)
    else
      let queryVector := env.normalizeL2 (env.embed q)
      let hits := env.search (indexO.getD []) queryVector topK
      match relevantChunksQ chunks env.threshold hits with
      | none => (queryFailMsg, 0)
      | some [] => (noRelevantMsg, 0)
      | some rcs =>
        (env.generate (buildPrompt q rcs) ++ buildReferences rcs, 1)

/-- The index-file resolution of the streaming variants (lines 394–408):
try `vector_index.faiss` under the sanitized directory, fall back to the
legacy `index.faiss`. -/
def loadStreamIndex (st : KBState) (safeName : String) :
    Option (List (List ℚ)) :=
  match lookupA st.indexFiles safeName with
  | some idx => some idx
  | none => lookupA st.oldIndexFiles safeName

/-- `KnowledgeBaseManager.query_stream` (lines 364–480).  Returns the
yielded pieces and the number of calls to
`self.llm_client.generate_stream`.  Unlike `query`, it resolves the
storage directory through `_safe_kb_name`, does not normalize the query
embedding, and does not apply the similarity threshold. -/
def kbQueryStream (env : Env) (st : KBState) (kbName q : String)
    (topK : Nat) : List String × Nat :=
  match lookupA st.registry kbName with
  | none => ([kbNotExistMsg kbName], 0)
  | some _ =>
    let safeName := safeKbName kbName
    match loadStreamIndex st safeName with
    | none => ([kbIndexMissingMsg kbName], 0)
    | some index =>
      match lookupA st.chunkFiles safeName with
      | none => ([kbChunksMissingMsg kbName], 0)
      | some chunks =>
        let queryVector := env.embed q
        let hits := env.search index queryVector topK
        match relevantChunksS chunks hits with
        | none => ([queryFailMsg], 0)
        | some [] => ([noRelevantDocsMsg], 0)
        | some rcs =>
          (env.generateStream (buildPrompt q rcs) ++ [buildReferences rcs], 1)

/-- `KnowledgeBaseManager.query_stream_with_context` (lines 482–603): the
retrieval is line-for-line the same as `query_stream`; only the
generation step differs (a message list through
`generate_stream_with_context`; the chat history and agent prompt only
feed that call and are not needed by the claims). -/
def kbQueryStreamWithContext (env : Env) (st : KBState) (kbName q : String)
    (topK : Nat) : List String × Nat :=
  match lookupA st.registry kbName with
  | none => ([kbNotExistMsg kbName], 0)
  | some _ =>
    let safeName := safeKbName kbName
    match loadStreamIndex st safeName with
    | none => ([kbIndexMissingMsg kbName], 0)
    | some index =>
      match lookupA st.chunkFiles safeName with
      | none => ([kbChunksMissingMsg kbName], 0)
      | some chunks =>
        let queryVector := env.embed q
        let hits := env.search index queryVector topK
        match relevantChunksS chunks hits with
        | none => ([queryFailMsg], 0)
        | some [] => ([noRelevantDocsMsg], 0)
        | some rcs =>
          (env.generateStreamWithContext (buildPrompt q rcs) ++ [buildReferences rcs], 1)

/-- The chunk set `query` retains as context, with the load path it
actually uses (raw name, normalized query vector, threshold filter);
`none` when the query never reaches retrieval (unknown KB or incomplete
data) or an index raises. -/
def queryRetained (env : Env) (st : KBState) (kbName q : String)
    (topK : Nat) : Option (List (DocumentChunk × ℚ)) :=
  match lookupA st.registry kbName with
  | none => none
  | some _ =>
    let indexO := lookupA st.indexFiles kbName
    let chunks := (lookupA st.chunkFiles kbName).getD []
    if indexO.isNone ∨ chunks = [] then none
    else
      relevantChunksQ chunks env.threshold
        (env.search (indexO.getD []) (env.normalizeL2 (env.embed q)) topK)

/-- The chunk set `query_stream` retains as context (sanitized directory,
raw query vector, no threshold). -/
def streamRetained (env : Env) (st : KBState) (kbName q : String)
    (topK : Nat) : Option (List (DocumentChunk × ℚ)) :=
  match lookupA st.registry kbName with
  | none => none
  | some _ =>
    let safeName := safeKbName kbName
    match loadStreamIndex st safeName with
    | none => none
    | some index =>
      match lookupA st.chunkFiles safeName with
      | none => none
      | some chunks =>
        relevantChunksS chunks (env.search index (env.embed q) topK)

/-- The chunk set `query_stream_with_context` retains as context. -/
def streamCtxRetained (env : Env) (st : KBState) (kbName q : String)
    (topK : Nat) : Option (List (DocumentChunk × ℚ)) :=
  match lookupA st.registry kbName with
  | none => none
  | some _ =>
    let safeName := safeKbName kbName
    match loadStreamIndex st safeName with
    | none => none
    | some index =>
      match lookupA st.chunkFiles safeName with
      | none => none
      | some chunks =>
        relevantChunksS chunks (env.search index (env.embed q) topK)

/-- `_build_vector_index` (lines 202–228): do nothing when there are no
chunks; otherwise L2-normalize the chunk embeddings row-wise and write
`vector_index.faiss` under the given directory name.  Returns the new
state together with the write events. -/
def buildVectorIndex (env : Env) (st : KBState) (dirName : String)
    (chunks : List DocumentChunk) : KBState × List Event :=
  if chunks = [] then (st, [])
  else
    let embeddings := chunks.map (fun c => env.normalizeL2 (c.embedding.getD []))
    ({ st with indexFiles := insertA st.indexFiles dirName embeddings },
      [Event.writeIndex dirName])

/-- `_save_chunks` (lines 230–250): write `chunks.pkl` with the
embeddings dropped from every chunk. -/
def saveChunks (st : KBState) (dirName : String)
    (chunks : List DocumentChunk) : KBState × List Event :=
  let saved := chunks.map (fun c => { c with embedding := none })
  ({ st with chunkFiles := insertA st.chunkFiles dirName saved },
    [Event.writeChunks dirName])

/-- `create_knowledge_base` (lines 122–200).  Fails without touching
state when the name is registered, the folder is absent, or the folder
yields no documents.  Otherwise: make the sanitized directory, chunk,
embed (`embed_texts` is one embedding per chunk content, attached by the
`zip` loop of lines 168–169), build the index, save the chunks, and only
then register the `KnowledgeBaseInfo` and persist the registry. -/
def createKB (env : Env) (st : KBState) (name folderPath description : String) :
    Bool × KBState × List Event :=
  if (lookupA st.registry name).isSome then (false, st, [])
  else if ¬ env.folderExists folderPath then (false, st, [])
  else
    let safeName := safeKbName name
    let documents := env.processFolder folderPath
    if documents = [] then (false, st, [Event.mkdirKB safeName])
    else
      let chunks := chunkDocuments env.chunkCfg documents
      let chunksE := chunks.map (fun c => { c with embedding := some (env.embed c.content) })
      let r1 := buildVectorIndex env st safeName chunksE
      let r2 := saveChunks r1.1 safeName chunksE
      let info : KBInfo :=
        { name := name
          description := description
          folderPath := folderPath
          createdAt := env.now
          updatedAt := env.now
          documentCount := documents.length
          chunkCount := chunks.length }
      let st3 := { r2.1 with registry := insertA r2.1.registry name info }
      (true, st3,
        Event.mkdirKB safeName :: r1.2 ++ r2.2 ++ [Event.registerKB name, Event.saveRegistry])

/-- `delete_knowledge_base` (lines 624–655): fail when the name is not
registered; otherwise remove the sanitized storage directory (all three
possible files) and then delete the registry entry and persist the
registry. -/
def deleteKB (st : KBState) (kbName : String) : Bool × KBState × List Event :=
  if (lookupA st.registry kbName).isNone then (false, st, [])
  else
    let safeName := safeKbName kbName
    let st1 :=
      { st with
        chunkFiles := eraseA st.chunkFiles safeName
        indexFiles := eraseA st.indexFiles safeName
        oldIndexFiles := eraseA st.oldIndexFiles safeName }
    let st2 := { st1 with registry := eraseA st1.registry kbName }
    (true, st2, [Event.removeTree safeName, Event.unregisterKB kbName, Event.saveRegistry])

/-- The state after the `delete_knowledge_base` call inside
`update_knowledge_base` — the point between delete and recreate. -/
def updateMidState (st : KBState) (kbName : String) : KBState :=
  (deleteKB st kbName).2.1

/-- `update_knowledge_base` (lines 657–682): fail when the name is not
registered; otherwise capture the old info, delete the knowledge base,
and recreate it from the old folder path and description. -/
def updateKB (env : Env) (st : KBState) (kbName : String) :
    Bool × KBState × List Event :=
  match lookupA st.registry kbName with
  | none => (false, st, [])
  | some info =>
    let d := deleteKB st kbName
    let c := createKB env d.2.1 kbName info.folderPath info.description
    (c.1, c.2.1, d.2.2 ++ c.2.2)

/-! ## Helper lemmas -/

lemma length_dropWhile_le (p : Char → Bool) (l : List Char) :
    (l.dropWhile p).length ≤ l.length := by
  induction l with
  | nil => simp
  | cons a t ih =>
    by_cases h : p a
    · simp only [List.dropWhile, h]
      simp only [List.length_cons]
      omega
    · simp only [List.dropWhile, h]
      simp only [List.length_cons]
      omega

lemma pyStrip_length_le (l : List Char) : (pyStrip l).length ≤ l.length := by
  unfold pyStrip
  calc ((l.dropWhile Char.isWhitespace).reverse.dropWhile Char.isWhitespace).reverse.length
      = ((l.dropWhile Char.isWhitespace).reverse.dropWhile Char.isWhitespace).length := by
        rw [List.length_reverse]
    _ ≤ (l.dropWhile Char.isWhitespace).reverse.length := length_dropWhile_le _ _
    _ = (l.dropWhile Char.isWhitespace).length := by rw [List.length_reverse]
    _ ≤ l.length := length_dropWhile_le _ _

lemma pyTail_length_le (k : Nat) (l : List Char) : (pyTail k l).length ≤ k := by
  simp only [pyTail, List.length_drop]
  omega

lemma le_foldr_max (l : List Nat) (a : Nat) (h : a ∈ l) : a ≤ l.foldr max 0 := by
  induction l with
  | nil => cases h
  | cons x t ih =>
    rcases List.mem_cons.mp h with rfl | ht
    · exact le_max_left _ _
    · exact le_trans (ih ht) (le_max_right _ _)

lemma lookupA_cons {α : Type} (p : String × α) (t : List (String × α)) (k : String) :
    lookupA (p :: t) k = if p.1 = k then some p.2 else lookupA t k := by
  by_cases h : p.1 = k
  · rw [if_pos h]
    unfold lookupA
    rw [List.find?_cons_of_pos _ (by simpa using h)]
    rfl
  · rw [if_neg h]
    unfold lookupA
    rw [List.find?_cons_of_neg _ (by simpa using h)]

lemma lookupA_filterNe_self {α : Type} (l : List (String × α)) (k : String) :
    lookupA (l.filter (fun p => p.1 ≠ k)) k = none := by
  induction l with
  | nil => rfl
  | cons p t ih =>
    rw [List.filter_cons]
    by_cases h : p.1 = k
    · simpa [h] using ih
    · rw [if_pos (by simpa using h), lookupA_cons, if_neg h]
      exact ih

lemma lookupA_filterNe_other {α : Type} (l : List (String × α)) (k k' : String)
    (h : k' ≠ k) : lookupA (l.filter (fun p => p.1 ≠ k)) k' = lookupA l k' := by
  induction l with
  | nil => rfl
  | cons p t ih =>
    rw [List.filter_cons]
    by_cases hp : p.1 = k
    · rw [if_neg (by simpa using hp), lookupA_cons, if_neg (by rw [hp]; exact fun e => h e.symm)]
      exact ih
    · rw [if_pos (by simpa using hp), lookupA_cons, lookupA_cons, ih]

lemma lookupA_append {α : Type} (l₁ l₂ : List (String × α)) (k : String) :
    lookupA (l₁ ++ l₂) k =
      match lookupA l₁ k with
      | some v => some v
      | none => lookupA l₂ k := by
  induction l₁ with
  | nil => rfl
  | cons p t ih =>
    rw [List.cons_append, lookupA_cons, lookupA_cons]
    by_cases h : p.1 = k
    · rw [if_pos h, if_pos h]
    · rw [if_neg h, if_neg h, ih]

lemma lookupA_insertA_self {α : Type} (l : List (String × α)) (k : String) (v : α) :
    lookupA (insertA l k v) k = some v := by
  rw [insertA, lookupA_append, lookupA_filterNe_self, lookupA_cons, if_pos rfl]

lemma lookupA_insertA_ne {α : Type} (l : List (String × α)) (k k' : String) (v : α)
    (h : k' ≠ k) : lookupA (insertA l k v) k' = lookupA l k' := by
  rw [insertA, lookupA_append, lookupA_filterNe_other l k k' h, lookupA_cons,
    if_neg (fun e => h e.symm)]
  cases lookupA l k' <;> rfl

lemma lookupA_eraseA_self {α : Type} (l : List (String × α)) (k : String) :
    lookupA (eraseA l k) k = none :=
  lookupA_filterNe_self l k

lemma lookupA_eraseA_ne {α : Type} (l : List (String × α)) (k k' : String)
    (h : k' ≠ k) : lookupA (eraseA l k) k' = lookupA l k' :=
  lookupA_filterNe_other l k k' h

/-! ## C7: chunk indices are `0, 1, …, n-1` in emission order -/

lemma chunkStep_idx (cfg : ChunkCfg) (st : ChunkSt) (p : List Char)
    (h : st.chunks.map RawChunk.idx = List.range st.idx) :
    (chunkStep cfg st p).chunks.map RawChunk.idx = List.range (chunkStep cfg st p).idx := by
  simp only [chunkStep]
  split_ifs <;> simp [h, List.range_succ]

lemma chunkFold_idx (cfg : ChunkCfg) (paras : List (List Char)) :
    ∀ st : ChunkSt, st.chunks.map RawChunk.idx = List.range st.idx →
      (paras.foldl (chunkStep cfg) st).chunks.map RawChunk.idx =
        List.range (paras.foldl (chunkStep cfg) st).idx := by
  induction paras with
  | nil => intro st h; simpa using h
  | cons p t ih => intro st h; exact ih _ (chunkStep_idx cfg st p h)

lemma chunkParagraphs_idx (cfg : ChunkCfg) (paras : List (List Char)) :
    (chunkParagraphs cfg paras).map RawChunk.idx =
      List.range (chunkParagraphs cfg paras).length := by
  have h0 : (⟨[], [], 0, 0⟩ : ChunkSt).chunks.map RawChunk.idx =
      List.range (⟨[], [], 0, 0⟩ : ChunkSt).idx := by simp
  have hf := chunkFold_idx cfg paras ⟨[], [], 0, 0⟩ h0
  have hlen : (paras.foldl (chunkStep cfg) ⟨[], [], 0, 0⟩).chunks.length =
      (paras.foldl (chunkStep cfg) ⟨[], [], 0, 0⟩).idx := by
    have := congrArg List.length hf
    simpa using this
  unfold chunkParagraphs chunkFinal
  split_ifs with h
  · rw [List.map_append, hf]
    simp [hlen, List.range_succ]
  · rw [hf, hlen]

/-- C7 — confirmed.  For every configuration and document, the
`chunk_index` metadata values of the chunks `_chunk_document` produces
form exactly the sequence `0, 1, …, n-1` in emission order: strictly
increasing, no gaps, no duplicates. -/
theorem C7_chunk_indices_contiguous (cfg : ChunkCfg) (doc : Document) :
    (chunkDocument cfg doc).map (fun c => c.meta.chunkIndex) =
      List.range (chunkDocument cfg doc).length := by
  unfold chunkDocument chunkRaw
  rw [List.map_map, List.length_map]
  have : ((fun c => c.meta.chunkIndex) ∘ fun rc => createChunk doc rc.content rc.idx) =
      RawChunk.idx := by
    funext rc
    rfl
  rw [this]
  exact chunkParagraphs_idx cfg (pySplit doc.content)

/-! ## C8: `find_most_similar` ordering and length -/

/-- C8 — confirmed.  For every query vector, candidate list and `top_k`,
`find_most_similar` returns its `(index, score)` pairs in non-increasing
score order, and the result length is `min top_k (number of candidates)`:
`top_k` caps the length but the result is never padded beyond the
available candidates. -/
theorem C8_findMostSimilar_sorted_len (queryEmbedding : List ℝ)
    (candidateEmbeddings : List (List ℝ)) (topK : Nat) :
    List.Sorted descScore
        (findMostSimilar Real.sqrt queryEmbedding candidateEmbeddings topK) ∧
      (findMostSimilar Real.sqrt queryEmbedding candidateEmbeddings topK).length =
        min topK candidateEmbeddings.length := by
  constructor
  · exact List.Pairwise.sublist (List.take_sublist _ _)
      (List.sorted_insertionSort descScore _)
  · rw [findMostSimilar]
    simp [List.length_take]

/-! ## C9: `compute_similarity` zero guard and self-similarity -/

lemma zipWith_mul_self (v : List ℝ) :
    List.zipWith (· * ·) v v = v.map (fun x => x * x) := by
  induction v with
  | nil => rfl
  | cons a t ih => simp [ih]

lemma dotL_self_nonneg (v : List ℝ) : 0 ≤ dotL v v := by
  rw [dotL, zipWith_mul_self]
  apply List.sum_nonneg
  intro y hy
  rcases List.mem_map.mp hy with ⟨x, _, rfl⟩
  exact mul_self_nonneg x

lemma dotL_self_pos (v : List ℝ) (x : ℝ) (hx : x ∈ v) (hx0 : x ≠ 0) :
    0 < dotL v v := by
  rw [dotL, zipWith_mul_self]
  have hmem : x * x ∈ v.map (fun x => x * x) := List.mem_map.mpr ⟨x, hx, rfl⟩
  have hle : x * x ≤ (v.map (fun x => x * x)).sum :=
    List.single_le_sum (fun y hy => by
      rcases List.mem_map.mp hy with ⟨z, _, rfl⟩
      exact mul_self_nonneg z) _ hmem
  exact lt_of_lt_of_le (mul_self_pos.mpr hx0) hle

/-- C9 — confirmed.  `compute_similarity` returns exactly `0.0` when
either argument has zero Euclidean norm, and for every vector with a
non-zero coordinate the self-similarity is exactly `1` in exact real
arithmetic. -/
theorem C9_computeSimilarity_guard_self (e1 e2 : List ℝ) :
    ((normL Real.sqrt e1 = 0 ∨ normL Real.sqrt e2 = 0) →
        computeSimilarity Real.sqrt e1 e2 = 0) ∧
      ((∃ x ∈ e1, x ≠ 0) → computeSimilarity Real.sqrt e1 e1 = 1) := by
  constructor
  · intro h
    rw [computeSimilarity, if_pos h]
  · rintro ⟨x, hx, hx0⟩
    have hpos : 0 < dotL e1 e1 := dotL_self_pos e1 x hx hx0
    have hnorm : normL Real.sqrt e1 = Real.sqrt (dotL e1 e1) := rfl
    have hne : normL Real.sqrt e1 ≠ 0 := by
      rw [hnorm]
      positivity
    rw [computeSimilarity, if_neg (by tauto)]
    rw [hnorm, Real.mul_self_sqrt hpos.le]
    exact div_self hpos.ne'

/-! ## C5: chunk length bound -/

/-- A two-paragraph document (paragraphs of lengths 4 and 4) used with
`chunk_size = 4`, `chunk_overlap = 2`: the second chunk is the overlap
seed plus the separator plus the second paragraph — 8 characters, above
`chunk_size + chunk_overlap = 6`. -/
def docC5 : Document := ⟨"d5", "t5", "aaaa\n\nbbbb"⟩

/-- C5 — counterexample.  With `chunk_size = 4`, `chunk_overlap = 2` and
a two-paragraph document whose paragraphs both fit `chunk_size`,
`_chunk_document` emits the chunks `"aaaa"` and `"aa\n\nbbbb"`; the second
has 8 > 4 + 2 characters, because the reseeded buffer counts the overlap
slice, the two-character `"\n\n"` separator and the triggering paragraph.
So not every chunk is bounded by `chunk_size + chunk_overlap`. -/
theorem C5_counterexample :
    (chunkDocument ⟨4, 2⟩ docC5).map (fun c => c.content) = ["aaaa", "aa\n\nbbbb"] ∧
      ¬ (∀ c ∈ chunkDocument ⟨4, 2⟩ docC5,
          c.content.length ≤ (4 : Nat) + 2) := by
  constructor
  · decide
  · decide

/-- The invariant of the `_chunk_document` loop that yields the corrected
bound: writing `B = max chunk_size (chunk_overlap + 2 + L)` for `L` a
bound on the stripped paragraph lengths and `j` the number of paragraphs
consumed so far, the size counter stays at most `B`, the buffer is at most
`2j` characters longer than the size counter (the counter misses the two
`"\n\n"` characters of each join), and every emitted chunk is at most
`B + 2j` characters long. -/
def sizeInv (cfg : ChunkCfg) (L j : Nat) (st : ChunkSt) : Prop :=
  st.size ≤ max cfg.chunkSize (cfg.chunkOverlap + 2 + L) ∧
  st.buf.length ≤ st.size + 2 * j ∧
  (st.buf = [] → st.size = 0) ∧
  ∀ rc ∈ st.chunks,
    rc.content.length ≤ max cfg.chunkSize (cfg.chunkOverlap + 2 + L) + 2 * j

lemma sizeInv_mono (cfg : ChunkCfg) (L j j' : Nat) (st : ChunkSt)
    (hj : j ≤ j') (h : sizeInv cfg L j st) : sizeInv cfg L j' st := by
  obtain ⟨h1, h2, h3, h4⟩ := h
  refine ⟨h1, le_trans h2 (by omega), h3, fun rc hrc => le_trans (h4 rc hrc) (by omega)⟩

lemma sizeInv_step (cfg : ChunkCfg) (L j : Nat) (st : ChunkSt) (p : List Char)
    (hp : (pyStrip p).length ≤ L) (h : sizeInv cfg L j st) :
    sizeInv cfg L (j + 1) (chunkStep cfg st p) := by
  obtain ⟨h1, h2, h3, h4⟩ := h
  have hB1 : cfg.chunkSize ≤ max cfg.chunkSize (cfg.chunkOverlap + 2 + L) :=
    le_max_left _ _
  have hB2 : cfg.chunkOverlap + 2 + L ≤ max cfg.chunkSize (cfg.chunkOverlap + 2 + L) :=
    le_max_right _ _
  have hchunks : ∀ rc ∈ st.chunks,
      rc.content.length ≤ max cfg.chunkSize (cfg.chunkOverlap + 2 + L) + 2 * (j + 1) :=
    fun rc hrc => le_trans (h4 rc hrc) (by omega)
  have hemit : (pyStrip st.buf).length ≤
      max cfg.chunkSize (cfg.chunkOverlap + 2 + L) + 2 * (j + 1) := by
    have := pyStrip_length_le st.buf
    omega
  have hsep : sepNN.length = 2 := rfl
  simp only [chunkStep]
  split_ifs with h5 h6 h7 h8
  · exact ⟨h1, le_trans h2 (by omega), h3, hchunks⟩
  · have hov := pyTail_length_le cfg.chunkOverlap st.buf
    refine ⟨?_, ?_, ?_, ?_⟩
    · dsimp only
      simp only [List.length_append]
      omega
    · dsimp only
      omega
    · dsimp only
      intro hb
      rw [hb]
      rfl
    · dsimp only
      intro rc hrc
      rcases List.mem_append.mp hrc with hl | hr
      · exact hchunks rc hl
      · rcases List.mem_singleton.mp hr with rfl
        exact hemit
  · refine ⟨?_, ?_, ?_, ?_⟩
    · dsimp only
      omega
    · dsimp only
      omega
    · dsimp only
      intro hb
      rw [hb]
      rfl
    · dsimp only
      intro rc hrc
      rcases List.mem_append.mp hrc with hl | hr
      · exact hchunks rc hl
      · rcases List.mem_singleton.mp hr with rfl
        exact hemit
  · have hsize : st.size + (pyStrip p).length ≤ cfg.chunkSize := by
      rcases not_and_or.mp h6 with hc | hc
      · omega
      · exact absurd h8 (by simpa using hc)
    refine ⟨?_, ?_, ?_, ?_⟩
    · dsimp only
      omega
    · dsimp only
      simp only [List.length_append]
      omega
    · dsimp only
      intro hb
      rcases List.append_eq_nil.mp hb with ⟨hb1, hb2⟩
      rcases List.append_eq_nil.mp hb1 with ⟨-, hb3⟩
      exact absurd hb3 (by simp [sepNN])
    · exact hchunks
  · have hsz : st.size = 0 := h3 (by simpa using h8)
    refine ⟨?_, ?_, ?_, ?_⟩
    · dsimp only
      omega
    · dsimp only
      omega
    · dsimp only
      intro hb
      rw [hb] at hp ⊢
      simp
      omega
    · exact hchunks

lemma sizeInv_foldl (cfg : ChunkCfg) (L : Nat) (paras : List (List Char)) :
    ∀ (st : ChunkSt) (j : Nat), (∀ p ∈ paras, (pyStrip p).length ≤ L) →
      sizeInv cfg L j st →
      sizeInv cfg L (j + paras.length) (paras.foldl (chunkStep cfg) st) := by
  induction paras with
  | nil => intro st j _ h; simpa using h
  | cons p t ih =>
    intro st j hp h
    have h1 := sizeInv_step cfg L j st p (hp p (List.mem_cons_self p t)) h
    have h2 := ih (chunkStep cfg st p) (j + 1)
      (fun q hq => hp q (List.mem_cons_of_mem p hq)) h1
    simpa [Nat.add_assoc, Nat.add_comm 1 t.length] using h2

lemma chunkParagraphs_length_le (cfg : ChunkCfg) (L : Nat)
    (paras : List (List Char)) (hp : ∀ p ∈ paras, (pyStrip p).length ≤ L) :
    ∀ rc ∈ chunkParagraphs cfg paras,
      rc.content.length ≤
        max cfg.chunkSize (cfg.chunkOverlap + 2 + L) + 2 * paras.length := by
  have h0 : sizeInv cfg L 0 (⟨[], [], 0, 0⟩ : ChunkSt) := by
    refine ⟨by simp, by simp, fun _ => rfl, by simp⟩
  have hf := sizeInv_foldl cfg L paras ⟨[], [], 0, 0⟩ 0 hp h0
  rw [Nat.zero_add] at hf
  obtain ⟨hs1, hs2, _, hs4⟩ := hf
  intro rc hrc
  unfold chunkParagraphs chunkFinal at hrc
  split_ifs at hrc with h
  · rcases List.mem_append.mp hrc with hl | hr
    · exact hs4 rc hl
    · rcases List.mem_singleton.mp hr with rfl
      exact le_trans (pyStrip_length_le _) (by omega)
  · exact hs4 rc hrc

/-- C5 — amended.  Every chunk `_chunk_document` emits has length at most
`max chunk_size (chunk_overlap + 2 + L) + 2·n`, where `L` is the longest
stripped paragraph and `n` the number of paragraphs of the document: the
loop's size counter ignores the two `"\n\n"` characters of every join and
an overlap reseed restarts the buffer at `chunk_overlap + 2` characters
plus the triggering paragraph, so `chunk_size + chunk_overlap` is not an
upper bound, but this corrected expression is. -/
theorem C5_amended_chunk_length_bound (cfg : ChunkCfg) (doc : Document)
    (c : DocumentChunk) (hc : c ∈ chunkDocument cfg doc) :
    c.content.length ≤
      max cfg.chunkSize (cfg.chunkOverlap + 2 + maxParaLen doc) + 2 * numParas doc := by
  unfold chunkDocument at hc
  rcases List.mem_map.mp hc with ⟨rc, hrc, rfl⟩
  have hbound := chunkParagraphs_length_le cfg (maxParaLen doc) (pySplit doc.content)
    (fun p hp => le_foldr_max _ _ (List.mem_map.mpr ⟨p, hp, rfl⟩)) rc hrc
  simpa [createChunk, numParas, String.length] using hbound

/-- Witness for the amended C5 bound at a concrete input: the first chunk
of `docC5` under `chunk_size = 4`, `chunk_overlap = 2` is a member and
satisfies the corrected bound. -/
theorem C5_amended_witness :
    createChunk docC5 "aaaa".data 0 ∈ chunkDocument ⟨4, 2⟩ docC5 ∧
      (createChunk docC5 "aaaa".data 0).content.length ≤
        max 4 (2 + 2 + maxParaLen docC5) + 2 * numParas docC5 :=
  ⟨by decide, C5_amended_chunk_length_bound ⟨4, 2⟩ docC5 _ (by decide)⟩

/-! ## C6: overlap seeding of consecutive chunks -/

/-- A three-paragraph document used with `chunk_size = 6`,
`chunk_overlap = 2`: the overlap window of the first emitted buffer
starts inside the `"\n\n"` separator, and the leading newline of the seed
is then removed by `strip()`. -/
def docC6 : Document := ⟨"d6", "t6", "AAA\n\nB\n\nCCC"⟩

/-- C6 — counterexample.  With `chunk_size = 6`, `chunk_overlap = 2` the
document `"AAA\n\nB\n\nCCC"` is split into the chunks `"AAA\n\nB"` and
`"B\n\nCCC"`: the trailing 2 characters of chunk 1 are `"\nB"`, but the
first 2 characters of chunk 2 are `"B\n"` — the seed's leading newline
was removed by `strip()` — so a later chunk does not in general begin
with the trailing `chunk_overlap` characters of the previously emitted
chunk. -/
theorem C6_counterexample :
    (chunkDocument ⟨6, 2⟩ docC6).map (fun c => c.content) = ["AAA\n\nB", "B\n\nCCC"] ∧
      ("B\n\nCCC".data).take 2 ≠ pyTail 2 ("AAA\n\nB".data) :=
  ⟨by decide, by decide⟩

/-- The relation between consecutive emitted buffers when
`chunk_overlap > 0`: the later buffer is the trailing `chunk_overlap`
characters of the earlier buffer (the whole buffer when shorter), then
`"\n\n"`, then the triggering paragraph and any further joined text. -/
def overlapSeeded (ov : Nat) (a b : RawChunk) : Prop :=
  ∃ s, b.raw = pyTail ov a.raw ++ sepNN ++ s

/-- The loop invariant behind the corrected C6: consecutive emitted
buffers are overlap-seeded, the current buffer extends a seed of the last
emitted buffer, and every emitted chunk content is the strip of its
buffer. -/
def seedInv (ov : Nat) (st : ChunkSt) : Prop :=
  List.Chain' (overlapSeeded ov) st.chunks ∧
  (∀ last ∈ st.chunks.getLast?, ∃ s, st.buf = pyTail ov last.raw ++ sepNN ++ s) ∧
  (st.buf = [] → st.chunks = []) ∧
  (∀ rc ∈ st.chunks, rc.content = pyStrip rc.raw)

lemma seedInv_step (cfg : ChunkCfg) (st : ChunkSt) (p : List Char)
    (hov : 0 < cfg.chunkOverlap) (h : seedInv cfg.chunkOverlap st) :
    seedInv cfg.chunkOverlap (chunkStep cfg st p) := by
  obtain ⟨h1, h2, h3, h4⟩ := h
  simp only [chunkStep]
  split_ifs with h5 h6 h7
  · exact ⟨h1, h2, h3, h4⟩
  · refine ⟨?_, ?_, ?_, ?_⟩
    · dsimp only
      rw [List.chain'_append]
      refine ⟨h1, List.chain'_singleton _, ?_⟩
      intro x hx y hy
      rcases h2 x hx with ⟨s, hs⟩
      simp only [List.head?_cons, Option.mem_def, Option.some_inj] at hy
      subst hy
      exact ⟨s, hs⟩
    · dsimp only
      intro last hlast
      rw [List.getLast?_concat] at hlast
      rcases Option.some_inj.mp hlast with rfl
      exact ⟨pyStrip p, rfl⟩
    · dsimp only
      intro hb
      rcases List.append_eq_nil.mp hb with ⟨hb1, -⟩
      rcases List.append_eq_nil.mp hb1 with ⟨-, hb3⟩
      exact absurd hb3 (by simp [sepNN])
    · dsimp only
      intro rc hrc
      rcases List.mem_append.mp hrc with hl | hr
      · exact h4 rc hl
      · rcases List.mem_singleton.mp hr with rfl
        rfl
  · refine ⟨h1, ?_, ?_, h4⟩
    · dsimp only
      intro last hlast
      rcases h2 last hlast with ⟨s, hs⟩
      refine ⟨s ++ sepNN ++ pyStrip p, ?_⟩
      rw [hs]
      simp [List.append_assoc]
    · dsimp only
      intro hb
      rcases List.append_eq_nil.mp hb with ⟨hb1, -⟩
      rcases List.append_eq_nil.mp hb1 with ⟨-, hb3⟩
      exact absurd hb3 (by simp [sepNN])
  · have hc : st.chunks = [] := h3 (by simpa using h7)
    refine ⟨?_, ?_, ?_, ?_⟩
    · dsimp only
      rw [hc]
      exact List.chain'_nil
    · dsimp only
      rw [hc]
      intro last hlast
      simp at hlast
    · dsimp only
      intro _
      exact hc
    · dsimp only
      rw [hc]
      intro rc hrc
      simp at hrc

lemma seedInv_foldl (cfg : ChunkCfg) (paras : List (List Char))
    (hov : 0 < cfg.chunkOverlap) :
    ∀ st : ChunkSt, seedInv cfg.chunkOverlap st →
      seedInv cfg.chunkOverlap (paras.foldl (chunkStep cfg) st) := by
  induction paras with
  | nil => intro st h; exact h
  | cons p t ih => intro st h; exact ih _ (seedInv_step cfg st p hov h)

/-- C6 — amended.  When `chunk_overlap > 0`, every chunk after the first
comes from a buffer that begins with exactly the trailing `chunk_overlap`
characters of the *pre-strip buffer* of the previous chunk (the whole
previous buffer when it is shorter), followed by `"\n\n"` and the
triggering paragraph with any further joined text; the emitted content is
the `strip()` of that buffer, which may remove leading whitespace of the
seed — so the emitted chunk need not literally begin with the previous
chunk's trailing `chunk_overlap` characters (see the counterexample). -/
theorem C6_amended_overlap_seeding (cfg : ChunkCfg) (doc : Document)
    (hov : 0 < cfg.chunkOverlap) :
    List.Chain' (overlapSeeded cfg.chunkOverlap) (chunkRaw cfg doc) ∧
      ∀ rc ∈ chunkRaw cfg doc, rc.content = pyStrip rc.raw := by
  have h0 : seedInv cfg.chunkOverlap (⟨[], [], 0, 0⟩ : ChunkSt) := by
    refine ⟨List.chain'_nil, ?_, fun _ => rfl, ?_⟩
    · intro last hlast
      simp at hlast
    · intro rc hrc
      simp at hrc
  have hf := seedInv_foldl cfg (pySplit doc.content) hov ⟨[], [], 0, 0⟩ h0
  obtain ⟨hf1, hf2, _, hf4⟩ := hf
  unfold chunkRaw chunkParagraphs chunkFinal
  split_ifs with h
  · constructor
    · rw [List.chain'_append]
      refine ⟨hf1, List.chain'_singleton _, ?_⟩
      intro x hx y hy
      rcases hf2 x hx with ⟨s, hs⟩
      simp only [List.head?_cons, Option.mem_def, Option.some_inj] at hy
      subst hy
      exact ⟨s, hs⟩
    · intro rc hrc
      rcases List.mem_append.mp hrc with hl | hr
      · exact hf4 rc hl
      · rcases List.mem_singleton.mp hr with rfl
        rfl
  · exact ⟨hf1, hf4⟩

/-- Witness for the amended C6 at a concrete input: the two chunks of
`docC6` under `chunk_size = 6`, `chunk_overlap = 2` are chained by the
overlap-seeding relation, and each content is the strip of its buffer. -/
theorem C6_amended_witness :
    List.Chain' (overlapSeeded 2) (chunkRaw ⟨6, 2⟩ docC6) ∧
      ∀ rc ∈ chunkRaw ⟨6, 2⟩ docC6, rc.content = pyStrip rc.raw :=
  C6_amended_overlap_seeding ⟨6, 2⟩ docC6 (by decide)

/-! ## Properties of the retrieval filters -/

lemma relevantChunksQ_threshold (chunks : List DocumentChunk) (threshold : ℚ) :
    ∀ (hits : List (ℚ × Int)) (rcs : List (DocumentChunk × ℚ)),
      relevantChunksQ chunks threshold hits = some rcs →
        ∀ p ∈ rcs, threshold ≤ p.2 := by
  intro hits
  induction hits with
  | nil =>
    intro rcs h p hp
    rcases Option.some_inj.mp h with rfl
    simp at hp
  | cons hd tl ih =>
    intro rcs h p hp
    rcases hd with ⟨score, i⟩
    rw [relevantChunksQ] at h
    split_ifs at h with hth
    · cases hg : pyGet chunks i with
      | none => rw [hg] at h; exact absurd h (by simp)
      | some c =>
        rw [hg] at h
        rcases Option.map_eq_some'.mp h with ⟨l, hl, rfl⟩
        rcases List.mem_cons.mp hp with rfl | hpl
        · exact hth
        · exact ih l hl p hpl
    · exact ih rcs h p hp

lemma relevantChunksQ_all_below (chunks : List DocumentChunk) (threshold : ℚ) :
    ∀ hits : List (ℚ × Int), (∀ h ∈ hits, h.1 < threshold) →
      relevantChunksQ chunks threshold hits = some [] := by
  intro hits
  induction hits with
  | nil => intro _; rfl
  | cons hd tl ih =>
    intro hall
    rcases hd with ⟨score, i⟩
    rw [relevantChunksQ]
    rw [if_neg (not_le.mpr (hall (score, i) (List.mem_cons_self _ _)))]
    exact ih (fun h hh => hall h (List.mem_cons_of_mem _ hh))

lemma relevantChunksQ_eq_relevantChunksS (chunks : List DocumentChunk)
    (threshold : ℚ) :
    ∀ hits : List (ℚ × Int),
      (∀ h ∈ hits, threshold ≤ h.1 ∧ 0 ≤ h.2 ∧ h.2 < (chunks.length : Int)) →
      relevantChunksQ chunks threshold hits = relevantChunksS chunks hits := by
  intro hits
  induction hits with
  | nil => intro _; rfl
  | cons hd tl ih =>
    intro hall
    rcases hd with ⟨score, i⟩
    obtain ⟨hth, hge, hlt⟩ := hall (score, i) (List.mem_cons_self _ _)
    rw [relevantChunksQ, relevantChunksS, if_pos hth, if_pos hlt,
      ih (fun h hh => hall h (List.mem_cons_of_mem _ hh))]

/-! ## Field projections of the storage operations -/

lemma buildVectorIndex_registry (env : Env) (st : KBState) (dir : String)
    (chunks : List DocumentChunk) :
    (buildVectorIndex env st dir chunks).1.registry = st.registry := by
  unfold buildVectorIndex
  split_ifs <;> rfl

lemma buildVectorIndex_chunkFiles (env : Env) (st : KBState) (dir : String)
    (chunks : List DocumentChunk) :
    (buildVectorIndex env st dir chunks).1.chunkFiles = st.chunkFiles := by
  unfold buildVectorIndex
  split_ifs <;> rfl

lemma buildVectorIndex_indexFiles_self (env : Env) (st : KBState) (dir : String)
    (chunks : List DocumentChunk) (h : chunks ≠ []) :
    (buildVectorIndex env st dir chunks).1.indexFiles =
      insertA st.indexFiles dir
        (chunks.map (fun c => env.normalizeL2 (c.embedding.getD []))) := by
  unfold buildVectorIndex
  rw [if_neg h]

/-- Once `query` has found the knowledge base and loaded a non-empty
index and chunk list, its answer is determined by the threshold filter
over the search hits. -/
lemma kbQuery_reached (env : Env) (st : KBState) (kbName q : String)
    (topKArg : Option Nat) (info : KBInfo) (index : List (List ℚ))
    (chunks : List DocumentChunk)
    (hreg : lookupA st.registry kbName = some info)
    (hidx : lookupA st.indexFiles kbName = some index)
    (hch : lookupA st.chunkFiles kbName = some chunks)
    (hne : chunks ≠ []) :
    kbQuery env st kbName q topKArg =
      match relevantChunksQ chunks env.threshold
          (env.search index (env.normalizeL2 (env.embed q))
            (topKArg.getD env.topKDefault)) with
      | none => (queryFailMsg, 0)
      | some [] => (noRelevantMsg, 0)
      | some rcs => (env.generate (buildPrompt q rcs) ++ buildReferences rcs, 1) := by
  rw [kbQuery, hreg]
  simp only [hidx, hch, Option.getD_some]
  rw [if_neg (by simp [hne])]

/-- C1 — confirmed.  For every query against an existing knowledge base
with complete data, `query` keeps only retrieved chunks whose similarity
score is at least the configured `similarity_threshold`; and whenever
every retrieved score is below the threshold, it returns the
`"没有找到相关内容"` (no relevant content) message with zero calls to the
LLM generation service. -/
theorem C1_query_threshold_no_llm (env : Env) (st : KBState)
    (kbName q : String) (topKArg : Option Nat) (info : KBInfo)
    (index : List (List ℚ)) (chunks : List DocumentChunk)
    (hreg : lookupA st.registry kbName = some info)
    (hidx : lookupA st.indexFiles kbName = some index)
    (hch : lookupA st.chunkFiles kbName = some chunks)
    (hne : chunks ≠ []) :
    (∀ rcs, relevantChunksQ chunks env.threshold
        (env.search index (env.normalizeL2 (env.embed q))
          (topKArg.getD env.topKDefault)) = some rcs →
        ∀ p ∈ rcs, env.threshold ≤ p.2) ∧
    ((∀ h ∈ env.search index (env.normalizeL2 (env.embed q))
          (topKArg.getD env.topKDefault), h.1 < env.threshold) →
      kbQuery env st kbName q topKArg = (noRelevantMsg, 0)) := by
  constructor
  · intro rcs h
    exact relevantChunksQ_threshold chunks env.threshold _ rcs h
  · intro hall
    rw [kbQuery_reached env st kbName q topKArg info index chunks hreg hidx hch hne,
      relevantChunksQ_all_below chunks env.threshold _ hall]

/-! ## Concrete environments and states for the witnesses and
counterexamples -/

/-- A one-paragraph document. -/
def docLow : Document := ⟨"doc1", "td", "hello"⟩

/-- A stored chunk, as `_save_chunks` writes it (no embedding). -/
def chunkLow : DocumentChunk :=
  { id := "c1", content := "hello", meta := ⟨"doc1", "td", 0, 5⟩, embedding := none }

/-- Registry info for the knowledge base `"kb"`. -/
def infoLow : KBInfo := ⟨"kb", "", "f", "T", "T", 1, 1⟩

/-- An environment whose index search returns a single hit with score
`0`, below the threshold `1`. -/
def envLow : Env :=
  { chunkCfg := ⟨1000, 200⟩
    threshold := 1
    topKDefault := 5
    folderExists := fun _ => true
    processFolder := fun _ => [docLow]
    embed := fun _ => [1]
    normalizeL2 := id
    search := fun _ _ _ => [(0, 0)]
    generate := fun _ => "ans"
    generateStream := fun _ => ["a"]
    generateStreamWithContext := fun _ => ["a"]
    now := "T" }

/-- A state holding the knowledge base `"kb"` with one chunk and one
index vector, stored under its own (already safe) name. -/
def stLow : KBState := ⟨[("kb", infoLow)], [("kb", [chunkLow])], [("kb", [[1]])], []⟩

/-- Witness for C1: in `envLow`/`stLow` the only retrieved score `0` is
below the threshold `1`, so `query` answers "no relevant content" and
performs zero generation calls. -/
theorem C1_witness :
    kbQuery envLow stLow "kb" "q" none = (noRelevantMsg, 0) :=
  (C1_query_threshold_no_llm envLow stLow "kb" "q" none infoLow [[1]] [chunkLow]
    (by decide) (by decide) (by decide) (by decide)).2 (by decide)

/-! ## C2: streaming variants vs `query` retrieval -/

/-- C2 — counterexample.  In `envLow`/`stLow` the single retrieved hit
has score `0`, below the threshold `1`: `query` retains nothing (and
answers "no relevant content"), while `query_stream` — which applies no
similarity-threshold filter — retains the chunk.  The retained context
sets therefore differ. -/
theorem C2_counterexample :
    streamRetained envLow stLow "kb" "q" 5 = some [(chunkLow, 0)] ∧
      queryRetained envLow stLow "kb" "q" 5 = some [] ∧
      streamRetained envLow stLow "kb" "q" 5 ≠ queryRetained envLow stLow "kb" "q" 5 :=
  ⟨by decide, by decide, by decide⟩

/-- C2 — amended.  The streaming variants resolve the same files (via the
sanitized name), but pass the *unnormalized* query embedding to the index
search and retain every hit with an in-range index, applying no
similarity-threshold filter.  Their retained context equals `query`'s
only under extra assumptions: the storage name is already sanitized, the
search result is unchanged by the normalization, and every hit passes the
threshold with a valid non-negative index.  The two streaming variants
themselves always retain the same context. -/
theorem C2_amended_stream_retrieval (env : Env) (st : KBState)
    (kbName q : String) (topK : Nat) (info : KBInfo) (index : List (List ℚ))
    (chunks : List DocumentChunk)
    (hreg : lookupA st.registry kbName = some info)
    (hsafe : safeKbName kbName = kbName)
    (hidx : lookupA st.indexFiles kbName = some index)
    (hch : lookupA st.chunkFiles kbName = some chunks)
    (hne : chunks ≠ [])
    (hnorm : env.search index (env.normalizeL2 (env.embed q)) topK =
      env.search index (env.embed q) topK)
    (hall : ∀ h ∈ env.search index (env.embed q) topK,
      env.threshold ≤ h.1 ∧ 0 ≤ h.2 ∧ h.2 < (chunks.length : Int)) :
    queryRetained env st kbName q topK = streamRetained env st kbName q topK ∧
      streamCtxRetained env st kbName q topK = streamRetained env st kbName q topK := by
  constructor
  · rw [queryRetained, streamRetained, hreg]
    simp only [hsafe, loadStreamIndex, hidx, hch, Option.getD_some]
    rw [if_neg (by simp [hne]), hnorm]
    exact relevantChunksQ_eq_relevantChunksS chunks env.threshold _ hall
  · rfl

/-- An environment whose single search hit passes the threshold and whose
search ignores the query vector (so normalization cannot change it). -/
def envEq : Env :=
  { envLow with threshold := 0, search := fun _ _ _ => [(1, 0)] }

/-- Witness for the amended C2 at a concrete input: with every hit above
the threshold and a normalization-insensitive search, the three retained
context sets agree. -/
theorem C2_amended_witness :
    queryRetained envEq stLow "kb" "q" 5 = streamRetained envEq stLow "kb" "q" 5 ∧
      streamCtxRetained envEq stLow "kb" "q" 5 = streamRetained envEq stLow "kb" "q" 5 :=
  C2_amended_stream_retrieval envEq stLow "kb" "q" 5 infoLow [[1]] [chunkLow]
    (by decide) (by decide) (by decide) (by decide) (by decide) (by decide) (by decide)

/-! ## C3: `create_knowledge_base` failure atomicity and write ordering -/

/-- The registry entry `create_knowledge_base` stores on success. -/
def createInfo (env : Env) (name folderPath description : String) : KBInfo :=
  { name := name
    description := description
    folderPath := folderPath
    createdAt := env.now
    updatedAt := env.now
    documentCount := (env.processFolder folderPath).length
    chunkCount := (chunkDocuments env.chunkCfg (env.processFolder folderPath)).length }

lemma createKB_success_elim (env : Env) (st : KBState)
    (name folderPath description : String)
    (h : (createKB env st name folderPath description).1 = true) :
    (lookupA st.registry name).isSome = false ∧ env.folderExists folderPath = true ∧
      env.processFolder folderPath ≠ [] := by
  by_cases h1 : (lookupA st.registry name).isSome = true
  · simp only [createKB, if_pos h1] at h
    cases h
  · by_cases h2 : env.folderExists folderPath = true
    · by_cases h3 : env.processFolder folderPath = []
      · have hc2 : ¬(¬ env.folderExists folderPath = true) := by simp [h2]
        simp only [createKB, if_neg h1, if_neg hc2, if_pos h3] at h
        cases h
      · exact ⟨by simpa using h1, h2, h3⟩
    · have hc2 : ¬ env.folderExists folderPath = true := h2
      simp only [createKB, if_neg h1, if_pos hc2] at h
      cases h

lemma createKB_registry_success (env : Env) (st : KBState)
    (name folderPath description : String)
    (h1 : (lookupA st.registry name).isSome = false)
    (h2 : env.folderExists folderPath = true)
    (h3 : env.processFolder folderPath ≠ []) :
    (createKB env st name folderPath description).1 = true ∧
      lookupA (createKB env st name folderPath description).2.1.registry name =
        some (createInfo env name folderPath description) := by
  have hc1 : ¬((lookupA st.registry name).isSome = true) := by simp [h1]
  have hc2 : ¬(¬ env.folderExists folderPath = true) := by simp [h2]
  simp only [createKB, if_neg hc1, if_neg hc2, if_neg h3]
  refine ⟨by trivial, ?_⟩
  show lookupA (insertA _ name _) name = _
  rw [lookupA_insertA_self]
  rfl

/-- C3 — confirmed.  `create_knowledge_base` returns `false` and leaves
the entire state (registry and all on-disk chunk/index files) unchanged
whenever the name is already registered, the folder does not exist, or
the folder yields zero documents; and on every success path the trace is
`mkdir`, the file writes (the index write being skipped exactly when
there are no chunks), then — last — the registration of the
`KnowledgeBaseInfo` and the registry save. -/
theorem C3_create_failure_and_ordering (env : Env) (st : KBState)
    (name folderPath description : String) :
    (((lookupA st.registry name).isSome = true ∨
        env.folderExists folderPath = false ∨
        env.processFolder folderPath = []) →
      (createKB env st name folderPath description).1 = false ∧
        (createKB env st name folderPath description).2.1 = st) ∧
    ((createKB env st name folderPath description).1 = true →
      ∃ wix, (createKB env st name folderPath description).2.2 =
          Event.mkdirKB (safeKbName name) ::
            (wix ++ [Event.writeChunks (safeKbName name),
              Event.registerKB name, Event.saveRegistry]) ∧
        (wix = [] ∨ wix = [Event.writeIndex (safeKbName name)])) := by
  constructor
  · rintro (hfail | hfail | hfail)
    · simp only [createKB, if_pos hfail]
      exact ⟨by trivial, by trivial⟩
    · by_cases h1 : (lookupA st.registry name).isSome = true
      · simp only [createKB, if_pos h1]
        exact ⟨by trivial, by trivial⟩
      · have hc2 : ¬ env.folderExists folderPath = true := by simp [hfail]
        simp only [createKB, if_neg h1, if_pos hc2]
        exact ⟨by trivial, by trivial⟩
    · by_cases h1 : (lookupA st.registry name).isSome = true
      · simp only [createKB, if_pos h1]
        exact ⟨by trivial, by trivial⟩
      · by_cases h2 : env.folderExists folderPath = true
        · have hc2 : ¬(¬ env.folderExists folderPath = true) := by simp [h2]
          simp only [createKB, if_neg h1, if_neg hc2, if_pos hfail]
          exact ⟨by trivial, by trivial⟩
        · have hc2 : ¬ env.folderExists folderPath = true := h2
          simp only [createKB, if_neg h1, if_pos hc2]
          exact ⟨by trivial, by trivial⟩
  · intro hsucc
    obtain ⟨h1, h2, h3⟩ := createKB_success_elim env st name folderPath description hsucc
    have hc1 : ¬((lookupA st.registry name).isSome = true) := by simp [h1]
    have hc2 : ¬(¬ env.folderExists folderPath = true) := by simp [h2]
    refine ⟨(buildVectorIndex env st (safeKbName name)
      ((chunkDocuments env.chunkCfg (env.processFolder folderPath)).map
        (fun c => { c with embedding := some (env.embed c.content) }))).2, ?_, ?_⟩
    · simp only [createKB, if_neg hc1, if_neg hc2, if_neg h3, saveChunks]
      simp [List.append_assoc]
    · rw [buildVectorIndex]
      split_ifs with h
      · exact Or.inl rfl
      · exact Or.inr rfl

/-- Witness for C3: creating `"kb"` in `stLow`, where `"kb"` is already
registered, fails and leaves the state untouched. -/
theorem C3_witness :
    (createKB envLow stLow "kb" "f" "d").1 = false ∧
      (createKB envLow stLow "kb" "f" "d").2.1 = stLow :=
  (C3_create_failure_and_ordering envLow stLow "kb" "f" "d").1 (Or.inl (by decide))

/-! ## C4: `update_knowledge_base` is not registry-atomic -/

/-- Old registry info for `"kb"` with 7 documents and 99 chunks. -/
def infoOld : KBInfo := ⟨"kb", "d0", "f", "T0", "T0", 7, 99⟩

/-- A state holding `"kb"` with the old info. -/
def stU : KBState := ⟨[("kb", infoOld)], [("kb", [chunkLow])], [("kb", [[1]])], []⟩

/-- C4 — counterexample.  Updating `"kb"` succeeds and afterwards shows
the new chunk count (1, not the old 99) — but in the middle of the
update, right after the internal `delete_knowledge_base` call and before
the recreate, the registry does not contain `"kb"` at all: the old info
is *not* visible until completion, and the event trace shows the
unregistration (with a registry save) strictly before the
re-registration. -/
theorem C4_counterexample :
    (updateKB envLow stU "kb").1 = true ∧
      lookupA (updateMidState stU "kb").registry "kb" = none ∧
      (lookupA (updateKB envLow stU "kb").2.1.registry "kb").map KBInfo.chunkCount =
        some 1 ∧
      infoOld.chunkCount = 99 ∧
      (updateKB envLow stU "kb").2.2 =
        [Event.removeTree "kb", Event.unregisterKB "kb", Event.saveRegistry,
          Event.mkdirKB "kb", Event.writeIndex "kb", Event.writeChunks "kb",
          Event.registerKB "kb", Event.saveRegistry] := by
  refine ⟨by decide, by decide, by decide, by decide, by decide⟩

/-- C4 — amended.  `update_knowledge_base` on a registered knowledge base
is delete-then-recreate: immediately after the internal delete the
registry has no entry for the name (the old info is no longer visible
mid-update), the whole update is exactly the delete followed by a
recreate from the captured old folder path and description, and when the
recreate succeeds the registry afterwards holds the freshly computed info
(new document and chunk counts). -/
theorem C4_amended_update_nonatomic (env : Env) (st : KBState) (name : String)
    (info : KBInfo) (hreg : lookupA st.registry name = some info) :
    lookupA (updateMidState st name).registry name = none ∧
      updateKB env st name =
        ((createKB env (updateMidState st name) name info.folderPath info.description).1,
         (createKB env (updateMidState st name) name info.folderPath info.description).2.1,
         (deleteKB st name).2.2 ++
           (createKB env (updateMidState st name) name info.folderPath info.description).2.2) ∧
      ((updateKB env st name).1 = true →
        lookupA (updateKB env st name).2.1.registry name =
          some (createInfo env name info.folderPath info.description)) := by
  have hcd : ¬((lookupA st.registry name).isNone = true) := by simp [hreg]
  have hmid : lookupA (updateMidState st name).registry name = none := by
    unfold updateMidState
    simp only [deleteKB, if_neg hcd]
    exact lookupA_eraseA_self _ _
  have hupd : updateKB env st name =
      ((createKB env (updateMidState st name) name info.folderPath info.description).1,
       (createKB env (updateMidState st name) name info.folderPath info.description).2.1,
       (deleteKB st name).2.2 ++
         (createKB env (updateMidState st name) name info.folderPath info.description).2.2) := by
    simp only [updateKB, hreg, updateMidState]
  refine ⟨hmid, hupd, ?_⟩
  intro hsucc
  rw [hupd] at hsucc
  obtain ⟨h1, h2, h3⟩ := createKB_success_elim env (updateMidState st name) name
    info.folderPath info.description hsucc
  have := (createKB_registry_success env (updateMidState st name) name
    info.folderPath info.description h1 h2 h3).2
  rw [hupd]
  exact this

/-- Witness for the amended C4 at a concrete input: mid-update the
registry has no `"kb"` entry, and after the successful update the
registry holds the freshly computed info. -/
theorem C4_amended_witness :
    lookupA (updateMidState stU "kb").registry "kb" = none ∧
      lookupA (updateKB envLow stU "kb").2.1.registry "kb" =
        some (createInfo envLow "kb" infoOld.folderPath infoOld.description) :=
  ⟨(C4_amended_update_nonatomic envLow stU "kb" infoOld (by decide)).1,
   (C4_amended_update_nonatomic envLow stU "kb" infoOld (by decide)).2.2 (by decide)⟩

/-! ## C10: sanitized write path vs raw read path -/

/-- The embedded chunk list `create_knowledge_base` builds before writing
the index and the chunk file. -/
def createChunksE (env : Env) (folderPath : String) : List DocumentChunk :=
  (chunkDocuments env.chunkCfg (env.processFolder folderPath)).map
    (fun c => { c with embedding := some (env.embed c.content) })

lemma createKB_files_success (env : Env) (st : KBState)
    (name folderPath description : String)
    (h1 : (lookupA st.registry name).isSome = false)
    (h2 : env.folderExists folderPath = true)
    (h3 : env.processFolder folderPath ≠ []) :
    (createKB env st name folderPath description).2.1.chunkFiles =
      insertA (buildVectorIndex env st (safeKbName name)
          (createChunksE env folderPath)).1.chunkFiles (safeKbName name)
        ((createChunksE env folderPath).map (fun c => { c with embedding := none })) ∧
    (createKB env st name folderPath description).2.1.indexFiles =
      (buildVectorIndex env st (safeKbName name)
        (createChunksE env folderPath)).1.indexFiles := by
  have hc1 : ¬((lookupA st.registry name).isSome = true) := by simp [h1]
  have hc2 : ¬(¬ env.folderExists folderPath = true) := by simp [h2]
  simp only [createKB, if_neg hc1, if_neg hc2, if_neg h3, saveChunks]
  exact ⟨rfl, rfl⟩

/-- C10 — confirmed.  When a knowledge-base name contains a character
that `_safe_kb_name` replaces, `create_knowledge_base` succeeds and
stores the chunk and index files under the sanitized directory name and
registers the raw name — but the non-streaming `query`, which loads both
files under the raw name, finds no chunk file and always answers with the
"data incomplete" error (making no LLM call), while the artifacts are
present under the sanitized name that the streaming variants resolve. -/
theorem C10_sanitized_write_raw_read (env : Env) (st : KBState)
    (name folderPath description q : String) (topKArg : Option Nat)
    (hsafe : safeKbName name ≠ name)
    (hraw : lookupA st.chunkFiles name = none)
    (h1 : (lookupA st.registry name).isSome = false)
    (h2 : env.folderExists folderPath = true)
    (h3 : env.processFolder folderPath ≠ []) :
    (createKB env st name folderPath description).1 = true ∧
      (lookupA (createKB env st name folderPath description).2.1.registry name).isSome =
        true ∧
      kbQuery env (createKB env st name folderPath description).2.1 name q topKArg =
        (kbIncompleteMsg name, 0) ∧
      (chunkDocuments env.chunkCfg (env.processFolder folderPath) ≠ [] →
        (lookupA (createKB env st name folderPath description).2.1.chunkFiles
          (safeKbName name)).isSome = true ∧
        (lookupA (createKB env st name folderPath description).2.1.indexFiles
          (safeKbName name)).isSome = true) := by
  obtain ⟨hsucc, hlook⟩ := createKB_registry_success env st name folderPath description
    h1 h2 h3
  obtain ⟨hcf, hif⟩ := createKB_files_success env st name folderPath description h1 h2 h3
  have hrawAfter : lookupA
      (createKB env st name folderPath description).2.1.chunkFiles name = none := by
    rw [hcf, lookupA_insertA_ne _ _ _ _ (fun e => hsafe e.symm),
      buildVectorIndex_chunkFiles]
    exact hraw
  refine ⟨hsucc, by rw [hlook]; rfl, ?_, ?_⟩
  · rw [kbQuery, hlook]
    simp only [hrawAfter, Option.getD_none]
    simp
  · intro hch
    have hE : createChunksE env folderPath ≠ [] := by
      simpa [createChunksE] using hch
    constructor
    · rw [hcf, lookupA_insertA_self]
      rfl
    · rw [hif, buildVectorIndex_indexFiles_self env st (safeKbName name) _ hE,
        lookupA_insertA_self]
      rfl

/-- A state with nothing registered and no files. -/
def stEmpty : KBState := ⟨[], [], [], []⟩

/-- Witness for C10: creating `"a/b"` (sanitized to `"a_b"`) in the empty
state succeeds, registers `"a/b"`, stores the files under `"a_b"`, and
`query "a/b"` answers with the data-incomplete error. -/
theorem C10_witness :
    (createKB envLow stEmpty "a/b" "f" "d").1 = true ∧
      (lookupA (createKB envLow stEmpty "a/b" "f" "d").2.1.registry "a/b").isSome =
        true ∧
      kbQuery envLow (createKB envLow stEmpty "a/b" "f" "d").2.1 "a/b" "q" none =
        (kbIncompleteMsg "a/b", 0) ∧
      (chunkDocuments envLow.chunkCfg (envLow.processFolder "f") ≠ [] →
        (lookupA (createKB envLow stEmpty "a/b" "f" "d").2.1.chunkFiles
          (safeKbName "a/b")).isSome = true ∧
        (lookupA (createKB envLow stEmpty "a/b" "f" "d").2.1.indexFiles
          (safeKbName "a/b")).isSome = true) :=
  C10_sanitized_write_raw_read envLow stEmpty "a/b" "f" "d" "q" none
    (by decide) (by decide) (by decide) (by decide) (by decide)

/-- Witness for C9: the similarity of a zero vector with `[1]` is `0`,
and the self-similarity of `[1, 2]` is exactly `1`. -/
theorem C9_witness :
    computeSimilarity Real.sqrt [0] [1] = 0 ∧
      computeSimilarity Real.sqrt [(1 : ℝ), 2] [(1 : ℝ), 2] = 1 :=
  ⟨(C9_computeSimilarity_guard_self [0] [1]).1 (Or.inl (by
      simp [normL, dotL])),
   (C9_computeSimilarity_guard_self [(1 : ℝ), 2] [(1 : ℝ), 2]).2
     ⟨1, by simp, one_ne_zero⟩⟩
